import Mathlib

/-!
Shallow embedding of `src/plugins/connector-integration-suite/hooks/tool_usage_hook.py`
(a post-tool-use hook that appends a JSON log record to a per-session file),
together with theorems settling the frozen claims about it.

Modelling conventions:
* Python strings are Lean `String`s (lists of unicode `Char`s).
* JSON numbers used as history timestamps are modelled as `Int` (the ordering
  claims do not depend on fractional values); a history `timestamp` field whose
  value is not a number (so that comparing it with a number raises `TypeError`)
  is modelled by the constructor `TsVal.str`.
* A history line that fails `json.loads` (`json.JSONDecodeError`, skipped by the
  inner `except`) is modelled as `none` in a `List (Option HistoryEntry)`.
* A missing or unreadable history file (`os.path.exists` false, or `open`/read
  raising, both of which make `get_session_prompt` return `None`) is modelled by
  passing `none` for the whole history.
* `float('inf')`, the initial running minimum, is modelled as `none : Option Int`.
* OS effects in `main` (`os.makedirs`, the final `open`/`write`) are modelled by
  boolean success flags in an environment record, and the observable behaviour of
  the process (file written, stderr output, exit status) by an `Outcome` type.
-/

/-- Python regex `\s` on `str` (unicode whitespace), written over `Char.toNat`:
ASCII whitespace `[ \t\n\x0b\x0c\r]`, the separator controls `\x1c`–`\x1f`,
`\x85`, `\xa0`, and the unicode space code points. Exact on every code point
below `0x100`; the concrete inputs used in this file stay in that range. -/
def pySpaceChar (c : Char) : Bool :=
  c.toNat = 32 || (9 ≤ c.toNat && c.toNat ≤ 13) || (28 ≤ c.toNat && c.toNat ≤ 31) ||
  c.toNat = 0x85 || c.toNat = 0xA0 || c.toNat = 0x1680 ||
  (0x2000 ≤ c.toNat && c.toNat ≤ 0x200A) || c.toNat = 0x2028 || c.toNat = 0x2029 ||
  c.toNat = 0x202F || c.toNat = 0x205F || c.toNat = 0x3000

/-- Python regex `\w` on `str` (unicode word character: underscore plus anything
`str.isalnum`), written over `Char.toNat`: ASCII `[A-Za-z0-9_]` plus the Latin-1
alphanumerics (`ª ² ³ µ ¹ º ¼ ½ ¾` and the letters `À`–`ÿ` except `×` and `÷`).
Exact on every code point below `0x100`; code points above that range (which the
concrete inputs in this file never use) are conservatively classified non-word. -/
def pyWordChar (c : Char) : Bool :=
  (48 ≤ c.toNat && c.toNat ≤ 57) || (65 ≤ c.toNat && c.toNat ≤ 90) ||
  (97 ≤ c.toNat && c.toNat ≤ 122) || c.toNat = 95 ||
  c.toNat = 0xAA || c.toNat = 0xB2 || c.toNat = 0xB3 || c.toNat = 0xB5 ||
  c.toNat = 0xB9 || c.toNat = 0xBA || c.toNat = 0xBC || c.toNat = 0xBD ||
  c.toNat = 0xBE ||
  (0xC0 ≤ c.toNat && c.toNat ≤ 0xFF && !(c.toNat = 0xD7) && !(c.toNat = 0xF7))

/-- Membership in the character class of `re.sub(r'[^\w\s-]', '', text)`:
a character survives that substitution iff it is `\w`, `\s` or `-`. -/
def keepChar (c : Char) : Bool :=
  pyWordChar c || pySpaceChar c || c.toNat = 45

/-- Membership in the character class `[-\s]` of `re.sub(r'[-\s]+', '_', ...)`. -/
def isDashSpace (c : Char) : Bool :=
  c.toNat = 45 || pySpaceChar c

/-- `re.sub(r'[-\s]+', '_', s)` on a character list: every maximal run of
characters in `[-\s]` becomes a single `'_'`. The boolean argument records
whether the previous character was part of such a run. -/
def collapseAux : Bool → List Char → List Char
  | _, [] => []
  | inRun, c :: rest =>
    if isDashSpace c then
      if inRun then collapseAux true rest else '_' :: collapseAux true rest
    else c :: collapseAux false rest

/-- `re.sub(r'[-\s]+', '_', s)` over the whole string (no run in progress). -/
def collapseRuns (l : List Char) : List Char :=
  collapseAux false l

/-- Python `str.strip(a)` for a single strip character: remove every leading and
trailing occurrence of `a`. -/
def stripChar (a : Char) (l : List Char) : List Char :=
  ((l.dropWhile (· = a)).reverse.dropWhile (· = a)).reverse

/-- `sanitize_filename` (lines 35–47 of the source): empty text gives the fixed
placeholder; otherwise strip every character outside `[\w\s-]`, collapse runs of
`[-\s]` to `'_'`, trim leading/trailing underscores, truncate to 50 characters.
The caller passes `prompt` which may be Python `None`; `None` and `""` both fail
the `if not text` truthiness test identically, so `main` below feeds `none` in
as `""`. -/
def sanitize_filename (text : String) : String :=
  if text = "" then "unknown_session"
  else String.mk ((stripChar '_' (collapseRuns (text.data.filter keepChar))).take 50)

/-- The value of a history record's `timestamp` field: a JSON number (modelled
as `Int`), or a non-numeric value such as a string, whose comparison with a
number via `<` raises `TypeError` in Python. -/
inductive TsVal where
  | num (n : Int)
  | str (s : String)
deriving DecidableEq

/-- One successfully `json.loads`-parsed history line, restricted to the fields
`get_session_prompt` reads. A field produced by `.get` as Python `None` (key
absent) is `none`; a `sessionId` that is present but not a string compares
unequal to the requested string identifier exactly like an absent one, so
`none` also covers it. -/
structure HistoryEntry where
  sessionId : Option String
  timestamp : Option TsVal
  display : Option String
deriving DecidableEq

/-- The `for line in f` loop of `get_session_prompt` (lines 20–29), with the
running state `first_prompt` and `min_timestamp` (where `none` models the
initial `float('inf')`). A `none` line is one whose `json.loads` raised
`JSONDecodeError` (the inner `except` continues). A matching entry whose
effective `timestamp` (with `.get` default `0`) is non-numeric makes
`timestamp < min_timestamp` raise `TypeError`, which escapes the loop to the
outer catch-all: modelled as `Except.error ()`. -/
def scanLoop (session_id : String) (first_prompt : Option String)
    (min_timestamp : Option Int) :
    List (Option HistoryEntry) → Except Unit (Option String)
  | [] => .ok first_prompt
  | line :: rest =>
    match line with
    | none => scanLoop session_id first_prompt min_timestamp rest
    | some entry =>
      if entry.sessionId = some session_id then
        match entry.timestamp.getD (TsVal.num 0) with
        | .str _ => .error ()
        | .num t =>
          if (match min_timestamp with
              | none => true
              | some m => decide (t < m)) then
            scanLoop session_id (some (entry.display.getD "")) (some t) rest
          else
            scanLoop session_id first_prompt min_timestamp rest
      else scanLoop session_id first_prompt min_timestamp rest

/-- `get_session_prompt` (lines 7–33): `none` for `history` models a missing
(`os.path.exists` false) or unreadable (open/read raising, caught by the outer
`except Exception`) history file; an in-scan `TypeError` is also caught there
and yields `None`. -/
def get_session_prompt (history : Option (List (Option HistoryEntry)))
    (session_id : String) : Option String :=
  match history with
  | none => none
  | some lines =>
    match scanLoop session_id none none lines with
    | .ok fp => fp
    | .error _ => none

/-- A generic JSON value, for the payload fields `main` copies verbatim. -/
inductive Json where
  | null
  | bool (b : Bool)
  | num (n : Int)
  | str (s : String)
  | arr (xs : List Json)
  | obj (kvs : List (String × Json))

/-- The fields `main` reads from a JSON-object payload via `.get`. `session_id`
is `none` when the key is absent (the case the claims quantify over); a present
string value is `some s`. -/
structure Payload where
  session_id : Option String
  tool_name : Option Json
  tool_input : Option Json
  tool_response : Option Json

/-- What `json.load(sys.stdin)` produces: a parse failure (`JSONDecodeError`,
caught at lines 51–54), a valid JSON document that is not an object (on which
`input_data.get` at line 57 raises an uncaught `AttributeError`), or an object. -/
inductive StdinDoc where
  | parseError
  | nonMapping
  | mapping (p : Payload)

/-- Python truthiness of the extracted `session_id` (`if session_id`): absent
(`None`) and the empty string are falsy. -/
def sidTruthy : Option String → Bool
  | none => false
  | some s => s ≠ ""

/-- `datetime.now()` restricted to the fields the two format strings use. -/
structure PyTime where
  year : Nat
  month : Nat
  day : Nat
  hour : Nat
  minute : Nat
  second : Nat
deriving DecidableEq

/-- The last decimal digit of `n` as a character. -/
def digitChar (n : Nat) : Char :=
  if n % 10 = 0 then '0' else if n % 10 = 1 then '1' else if n % 10 = 2 then '2'
  else if n % 10 = 3 then '3' else if n % 10 = 4 then '4' else if n % 10 = 5 then '5'
  else if n % 10 = 6 then '6' else if n % 10 = 7 then '7' else if n % 10 = 8 then '8'
  else '9'

/-- Zero-padded 2-digit decimal (`%m`, `%d`, `%H`, `%M`, `%S`), exact for `n < 100`. -/
def pad2l (n : Nat) : List Char :=
  [digitChar (n / 10), digitChar n]

/-- Zero-padded 4-digit decimal (`%Y`), exact for `1000 ≤ n < 10000`
(the range `datetime` produces on the platforms this hook targets). -/
def pad4l (n : Nat) : List Char :=
  [digitChar (n / 1000), digitChar (n / 100), digitChar (n / 10), digitChar n]

/-- `datetime.now().strftime('%Y%m%d_%H%M%S')` (line 68). -/
def strftimeYmdHMS (t : PyTime) : String :=
  String.mk (pad4l t.year ++ pad2l t.month ++ pad2l t.day ++
    '_' :: (pad2l t.hour ++ pad2l t.minute ++ pad2l t.second))

/-- The filename construction of `main` (lines 62–68). -/
def constructFilename (session_id : Option String) (sanitized_prompt : String)
    (now : PyTime) : String :=
  if sidTruthy session_id then
    "session_" ++ session_id.getD "" ++ "_" ++ sanitized_prompt ++ ".jsonl"
  else
    "tool_usage_" ++ strftimeYmdHMS now ++ ".jsonl"

/-- The record appended at lines 80–86. -/
structure LogEntry where
  timestamp : String
  tool : Option Json
  input : Option Json
  result : Option Json
  session_id : Option String

/-- The ambient state one invocation of `main` runs in: the readable content of
`~/.claude/history.jsonl` (or `none` if missing/unreadable), the current time
(for both format strings; `nowIso` is the `datetime.now().isoformat()` text of
line 81), `os.getcwd()`, and whether `os.makedirs` (line 75) and the final
append `open`/`write` (lines 90–91) succeed. -/
structure Env where
  history : Option (List (Option HistoryEntry))
  now : PyTime
  nowIso : String
  cwd : String
  mkdirOk : Bool
  writeOk : Bool

/-- Observable result of one process run of `main` (lines 49–94):
`silentNoop` — `main` returns early, nothing written, nothing printed, exit 0;
`wrote` — one line appended to `path`, exit 0;
`writeError` — the `except` at lines 92–94: message on stderr, `sys.exit(1)`;
`uncaughtError` — an exception with no handler (e.g. `AttributeError` from
`.get` on a non-dict, or `os.makedirs` failing): Python prints a traceback to
stderr and the process exits with status 1. -/
inductive Outcome where
  | silentNoop
  | wrote (path : String) (entry : LogEntry)
  | writeError
  | uncaughtError

/-- Whether the process exits with status 0 on this outcome. -/
def exitsZero : Outcome → Bool
  | .silentNoop => true
  | .wrote _ _ => true
  | .writeError => false
  | .uncaughtError => false

/-- Whether anything is printed to the error stream on this outcome. -/
def printsError : Outcome → Bool
  | .silentNoop => false
  | .wrote _ _ => false
  | .writeError => true
  | .uncaughtError => true

/-- Whether an output file is written on this outcome. -/
def writesFile : Outcome → Bool
  | .silentNoop => false
  | .wrote _ _ => true
  | .writeError => false
  | .uncaughtError => false

/-- `main` (lines 49–94). `sanitize_filename` receives `prompt` which is Python
`None` or a string; `None` and `""` behave identically under its `if not text`
test, so `none` is passed through as `""`. The only `try` blocks are around
`json.load` (lines 51–54) and the final append (lines 89–94); everything in
between runs bare, so a non-mapping payload (`.get` raises `AttributeError`)
and a failing `os.makedirs` end the process with an uncaught exception. -/
def mainHook (stdin : StdinDoc) (env : Env) : Outcome :=
  match stdin with
  | .parseError => .silentNoop
  | .nonMapping => .uncaughtError
  | .mapping input_data =>
    let session_id := input_data.session_id
    let prompt :=
      if sidTruthy session_id then get_session_prompt env.history (session_id.getD "")
      else none
    let sanitized_prompt := sanitize_filename (prompt.getD "")
    let filename := constructFilename session_id sanitized_prompt env.now
    if env.mkdirOk then
      if env.writeOk then
        .wrote (env.cwd ++ "/.claude/analytics/tool_usage_history/" ++ filename)
          { timestamp := env.nowIso
            tool := input_data.tool_name
            input := input_data.tool_input
            result := input_data.tool_response
            session_id := session_id }
      else .writeError
    else .uncaughtError

/-! ### Analysis of the history scan -/

/-- The successfully parsed history records whose `sessionId` equals the
requested identifier, in file order — exactly the entries on which the loop
body past the `if` at line 23 runs. -/
def matchesOf (session_id : String) (lines : List (Option HistoryEntry)) :
    List HistoryEntry :=
  lines.filterMap fun line =>
    match line with
    | none => none
    | some entry => if entry.sessionId = some session_id then some entry else none

/-- Whether an entry's effective timestamp (`entry.get("timestamp", 0)`) is a
number, so that comparing it with the running minimum cannot raise. -/
def isNumTs (e : HistoryEntry) : Bool :=
  match e.timestamp.getD (TsVal.num 0) with
  | .num _ => true
  | .str _ => false

/-- The effective numeric timestamp of an entry (junk value 0 on the
non-numeric case, which `isNumTs` rules out where it matters). -/
def etsInt (e : HistoryEntry) : Int :=
  match e.timestamp.getD (TsVal.num 0) with
  | .num n => n
  | .str _ => 0

/-- One step of the scan state update, on a matching entry with a numeric
effective timestamp. -/
def selStep (st : Option String × Option Int) (e : HistoryEntry) :
    Option String × Option Int :=
  match st.2 with
  | none => (some (e.display.getD ""), some (etsInt e))
  | some m =>
    if etsInt e < m then (some (e.display.getD ""), some (etsInt e)) else st

/-- Whether an entry carries an explicit, strictly positive numeric timestamp. -/
def posNumTs (e : HistoryEntry) : Bool :=
  match e.timestamp with
  | some (TsVal.num v) => decide (0 < v)
  | _ => false

/-- The output alphabet named by the spec: `[A-Za-z0-9_]` (ASCII only). -/
def asciiWordChar (c : Char) : Bool :=
  (48 ≤ c.toNat && c.toNat ≤ 57) || (65 ≤ c.toNat && c.toNat ≤ 90) ||
  (97 ≤ c.toNat && c.toNat ≤ 122) || c.toNat = 95

/-- The claim's filename pattern for the no-session fallback: exactly 15
characters, positions 0–7 and 9–14 decimal digits, position 8 an underscore
(i.e. a 14-digit `YYYYMMDD_HHMMSS` timestamp). -/
def ts14aux : List Char → Bool
  | [a, b, c, d, e, f, g, h, u, p, q, r, v, w, y] =>
    ([a, b, c, d, e, f, g, h].all Char.isDigit) && (u == '_') &&
    ([p, q, r, v, w, y].all Char.isDigit)
  | _ => false

/-- Whether a string matches the `<14-digit timestamp>` pattern of the spec. -/
def isTimestamp14 (s : String) : Bool :=
  ts14aux s.data

/-! ### Concrete evaluation checks of the embedding -/

example : sanitize_filename "Fix the bug!!" = "Fix_the_bug" := by decide
example : sanitize_filename "" = "unknown_session" := by decide
example : sanitize_filename "é" = "é" := by decide
example : sanitize_filename "_" = "" := by decide
example : sanitize_filename "  a - b  " = "a_b" := by decide

example :
    get_session_prompt
      (some [some ⟨some "s", some (.num 5), some "b"⟩,
             some ⟨some "s", some (.num 3), some "a"⟩,
             none,
             some ⟨some "t", some (.num 1), some "c"⟩,
             some ⟨some "s", some (.num 3), some "z"⟩]) "s" = some "a" := by decide

example :
    get_session_prompt
      (some [some ⟨some "s", some (.num 1), some "good"⟩,
             some ⟨some "s", some (.str "bad"), some "b"⟩]) "s" = none := by decide

example :
    get_session_prompt (some [some ⟨some "s", none, some "zero"⟩,
                              some ⟨some "s", some (.num 1), some "one"⟩]) "s"
      = some "zero" := by decide

theorem scanLoop_cons_none (session_id : String) (fp : Option String)
    (m : Option Int) (rest : List (Option HistoryEntry)) :
    scanLoop session_id fp m (none :: rest) = scanLoop session_id fp m rest := rfl

theorem scanLoop_cons_nomatch (session_id : String) (fp : Option String)
    (m : Option Int) (entry : HistoryEntry) (rest : List (Option HistoryEntry))
    (h : ¬ entry.sessionId = some session_id) :
    scanLoop session_id fp m (some entry :: rest) =
      scanLoop session_id fp m rest := by
  simp only [scanLoop, if_neg h]

theorem scanLoop_cons_str (session_id : String) (fp : Option String)
    (m : Option Int) (entry : HistoryEntry) (rest : List (Option HistoryEntry))
    (h : entry.sessionId = some session_id) (s : String)
    (ht : entry.timestamp.getD (TsVal.num 0) = TsVal.str s) :
    scanLoop session_id fp m (some entry :: rest) = .error () := by
  simp only [scanLoop, if_pos h, ht]

theorem scanLoop_cons_update (session_id : String) (fp : Option String)
    (m : Option Int) (entry : HistoryEntry) (rest : List (Option HistoryEntry))
    (h : entry.sessionId = some session_id) (t : Int)
    (ht : entry.timestamp.getD (TsVal.num 0) = TsVal.num t)
    (hlt : (match m with | none => true | some mv => decide (t < mv)) = true) :
    scanLoop session_id fp m (some entry :: rest) =
      scanLoop session_id (some (entry.display.getD "")) (some t) rest := by
  simp only [scanLoop, if_pos h, ht, hlt, if_true]

theorem scanLoop_cons_keep (session_id : String) (fp : Option String)
    (m : Option Int) (entry : HistoryEntry) (rest : List (Option HistoryEntry))
    (h : entry.sessionId = some session_id) (t : Int)
    (ht : entry.timestamp.getD (TsVal.num 0) = TsVal.num t)
    (hlt : (match m with | none => true | some mv => decide (t < mv)) = false) :
    scanLoop session_id fp m (some entry :: rest) =
      scanLoop session_id fp m rest := by
  simp only [scanLoop, if_pos h, ht, hlt]
  rfl

theorem selStep_of_none (st : Option String × Option Int) (e : HistoryEntry)
    (h : st.2 = none) :
    selStep st e = (some (e.display.getD ""), some (etsInt e)) := by
  unfold selStep; rw [h]

theorem selStep_of_lt (st : Option String × Option Int) (e : HistoryEntry)
    (m : Int) (h : st.2 = some m) (hlt : etsInt e < m) :
    selStep st e = (some (e.display.getD ""), some (etsInt e)) := by
  unfold selStep; rw [h]; simp [hlt]

theorem selStep_of_ge (st : Option String × Option Int) (e : HistoryEntry)
    (m : Int) (h : st.2 = some m) (hlt : ¬ etsInt e < m) :
    selStep st e = st := by
  unfold selStep; rw [h]; simp [hlt]

theorem matchesOf_cons_none (session_id : String)
    (rest : List (Option HistoryEntry)) :
    matchesOf session_id (none :: rest) = matchesOf session_id rest := by
  simp [matchesOf, List.filterMap_cons]

theorem matchesOf_cons_match (session_id : String) (entry : HistoryEntry)
    (rest : List (Option HistoryEntry))
    (h : entry.sessionId = some session_id) :
    matchesOf session_id (some entry :: rest) =
      entry :: matchesOf session_id rest := by
  simp [matchesOf, List.filterMap_cons, h]

theorem matchesOf_cons_nomatch (session_id : String) (entry : HistoryEntry)
    (rest : List (Option HistoryEntry))
    (h : ¬ entry.sessionId = some session_id) :
    matchesOf session_id (some entry :: rest) = matchesOf session_id rest := by
  simp [matchesOf, List.filterMap_cons, h]

theorem scanLoop_eq_foldl (session_id : String)
    (lines : List (Option HistoryEntry)) :
    ∀ fp m, (∀ e ∈ matchesOf session_id lines, isNumTs e = true) →
      scanLoop session_id fp m lines =
        .ok (List.foldl selStep (fp, m) (matchesOf session_id lines)).1 := by
  induction lines with
  | nil => intro fp m _; rfl
  | cons line rest ih =>
    intro fp m hnum
    match line with
    | none =>
      rw [scanLoop_cons_none, matchesOf_cons_none]
      exact ih fp m (by rwa [matchesOf_cons_none] at hnum)
    | some entry =>
      by_cases hmatch : entry.sessionId = some session_id
      · have hnum' := hnum
        rw [matchesOf_cons_match session_id entry rest hmatch] at hnum'
        have hent : isNumTs entry = true := hnum' entry (by simp)
        have hrest : ∀ e ∈ matchesOf session_id rest, isNumTs e = true :=
          fun e he => hnum' e (by simp [he])
        obtain ⟨t, ht⟩ : ∃ t, entry.timestamp.getD (TsVal.num 0) = TsVal.num t := by
          unfold isNumTs at hent
          rcases h : entry.timestamp.getD (TsVal.num 0) with t | sv
          · exact ⟨t, rfl⟩
          · rw [h] at hent; simp at hent
        have hets : etsInt entry = t := by unfold etsInt; rw [ht]
        rw [matchesOf_cons_match session_id entry rest hmatch, List.foldl_cons]
        cases hcond : (match m with | none => true | some mv => decide (t < mv)) with
        | false =>
          rw [scanLoop_cons_keep session_id fp m entry rest hmatch t ht hcond]
          rw [ih fp m hrest]
          cases m with
          | none => simp at hcond
          | some mv =>
            have hge : ¬ etsInt entry < mv := by
              rw [hets]; simpa using hcond
            rw [selStep_of_ge (fp, some mv) entry mv rfl hge]
        | true =>
          rw [scanLoop_cons_update session_id fp m entry rest hmatch t ht hcond]
          rw [ih _ _ hrest]
          cases m with
          | none =>
            rw [selStep_of_none (fp, none) entry rfl, hets]
          | some mv =>
            have hlt : etsInt entry < mv := by
              rw [hets]; simpa using hcond
            rw [selStep_of_lt (fp, some mv) entry mv rfl hlt, hets]
      · rw [scanLoop_cons_nomatch session_id fp m entry rest hmatch,
          matchesOf_cons_nomatch session_id entry rest hmatch]
        exact ih fp m
          (by rwa [matchesOf_cons_nomatch session_id entry rest hmatch] at hnum)

theorem selFold_min_mem (l : List HistoryEntry) :
    ∀ st : Option String × Option Int,
      (List.foldl selStep st l).2 = st.2 ∨
        ∃ x ∈ l, (List.foldl selStep st l).2 = some (etsInt x) := by
  induction l with
  | nil => intro st; left; rfl
  | cons e rest ih =>
    intro st
    rw [List.foldl_cons]
    match hst : st.2 with
    | none =>
      rw [selStep_of_none st e hst]
      rcases ih (some (e.display.getD ""), some (etsInt e)) with h | ⟨x, hx, hx2⟩
      · right; exact ⟨e, by simp, h⟩
      · right; exact ⟨x, by simp [hx], hx2⟩
    | some m =>
      by_cases hlt : etsInt e < m
      · rw [selStep_of_lt st e m hst hlt]
        rcases ih (some (e.display.getD ""), some (etsInt e)) with h | ⟨x, hx, hx2⟩
        · right; exact ⟨e, by simp, h⟩
        · right; exact ⟨x, by simp [hx], hx2⟩
      · rw [selStep_of_ge st e m hst hlt]
        rcases ih st with h | ⟨x, hx, hx2⟩
        · left; rw [h, hst]
        · right; exact ⟨x, by simp [hx], hx2⟩

theorem selFold_no_update (l : List HistoryEntry) :
    ∀ fp m, (∀ x ∈ l, ¬ etsInt x < m) →
      List.foldl selStep (fp, some m) l = (fp, some m) := by
  induction l with
  | nil => intro fp m _; rfl
  | cons e rest ih =>
    intro fp m h
    rw [List.foldl_cons, selStep_of_ge (fp, some m) e m rfl (h e (by simp))]
    exact ih fp m fun x hx => h x (by simp [hx])

/-- Core characterisation of the scan: if, among the matching records (all with
numeric effective timestamps), `e` is the earliest record attaining the global
minimum effective timestamp — every record before it is strictly larger, every
record after it is at least as large — then the scan returns `e`'s display
text. -/
theorem get_session_prompt_spec (session_id : String)
    (lines : List (Option HistoryEntry)) (pre post : List HistoryEntry)
    (e : HistoryEntry)
    (hnum : ∀ x ∈ matchesOf session_id lines, isNumTs x = true)
    (hsplit : matchesOf session_id lines = pre ++ e :: post)
    (hpre : ∀ x ∈ pre, etsInt e < etsInt x)
    (hpost : ∀ x ∈ post, etsInt e ≤ etsInt x) :
    get_session_prompt (some lines) session_id = some (e.display.getD "") := by
  have h1 := scanLoop_eq_foldl session_id lines none none hnum
  rw [hsplit, List.foldl_append, List.foldl_cons] at h1
  have hstep : selStep (List.foldl selStep ((none : Option String), (none : Option Int)) pre) e =
      ((some (e.display.getD ""), some (etsInt e)) : Option String × Option Int) := by
    rcases selFold_min_mem pre ((none : Option String), (none : Option Int)) with h | ⟨x, hx, hx2⟩
    · exact selStep_of_none _ e h
    · exact selStep_of_lt _ e (etsInt x) hx2 (hpre x hx)
  rw [hstep, selFold_no_update post (some (e.display.getD "")) (etsInt e)
    (fun x hx => not_lt.mpr (hpost x hx))] at h1
  simp only [get_session_prompt, h1]

theorem noneTs_etsInt (x : HistoryEntry) (h : x.timestamp = none) :
    etsInt x = 0 ∧ isNumTs x = true := by
  unfold etsInt isNumTs; rw [h]; simp

theorem posNumTs_etsInt (x : HistoryEntry) (h : posNumTs x = true) :
    0 < etsInt x ∧ isNumTs x = true := by
  unfold posNumTs at h
  rcases hx : x.timestamp with _ | v
  · rw [hx] at h; simp at h
  · rcases v with n | sv
    · rw [hx] at h
      unfold etsInt isNumTs
      rw [hx]
      simpa using h
    · rw [hx] at h; simp at h

/-- C1: for a session identifier with at least one matching, parseable record
(with the data model's numeric-or-absent timestamps, so that no comparison
raises — the non-numeric case is claim C10), `get_session_prompt` returns the
display text of the matching record with the globally minimum effective
timestamp, regardless of file order; among records sharing that minimum the
earliest one in file order wins, because line 25 compares with strict `<`
against the running minimum. `e` here is that earliest global-minimum match:
every match before it is strictly larger, every match after it at least as
large. -/
theorem get_session_prompt_min_timestamp (session_id : String)
    (lines : List (Option HistoryEntry)) (pre post : List HistoryEntry)
    (e : HistoryEntry)
    (hnum : ∀ x ∈ matchesOf session_id lines, isNumTs x = true)
    (hsplit : matchesOf session_id lines = pre ++ e :: post)
    (hpre : ∀ x ∈ pre, etsInt e < etsInt x)
    (hpost : ∀ x ∈ post, etsInt e ≤ etsInt x) :
    get_session_prompt (some lines) session_id = some (e.display.getD "") :=
  get_session_prompt_spec session_id lines pre post e hnum hsplit hpre hpost

/-- Witness for C1: a history whose minimum-timestamp match (timestamp 3,
display "a") sits in the middle of the file, after a larger match and before a
tied match; the scan returns "a". -/
theorem get_session_prompt_min_timestamp_witness :
    get_session_prompt
      (some [some ⟨some "s", some (.num 5), some "b"⟩,
             some ⟨some "s", some (.num 3), some "a"⟩,
             none,
             some ⟨some "t", some (.num 1), some "c"⟩,
             some ⟨some "s", some (.num 3), some "z"⟩]) "s" = some "a" :=
  get_session_prompt_min_timestamp "s"
    [some ⟨some "s", some (.num 5), some "b"⟩,
     some ⟨some "s", some (.num 3), some "a"⟩,
     none,
     some ⟨some "t", some (.num 1), some "c"⟩,
     some ⟨some "s", some (.num 3), some "z"⟩]
    [⟨some "s", some (.num 5), some "b"⟩]
    [⟨some "s", some (.num 3), some "z"⟩]
    ⟨some "s", some (.num 3), some "a"⟩
    (by decide) (by decide) (by decide) (by decide)

/-- C4: a missing/unreadable history source, or one without any record
matching the identifier, makes `get_session_prompt` return `None`; every such
failure is absorbed by the `os.path.exists` check and the surrounding
`except Exception`, so nothing is raised past the function (absorption is what
the total `Option`-valued embedding expresses). -/
theorem get_session_prompt_absent (session_id : String) :
    get_session_prompt none session_id = none ∧
    ∀ lines, matchesOf session_id lines = [] →
      get_session_prompt (some lines) session_id = none := by
  refine ⟨rfl, ?_⟩
  intro lines hempty
  have h1 := scanLoop_eq_foldl session_id lines none none
    (by rw [hempty]; intro x hx; cases hx)
  rw [hempty] at h1
  simp only [get_session_prompt, h1, List.foldl_nil]

/-- Witness for C4: the missing-file case and a readable history whose records
(one for another session, one unparsable line) never match "x". -/
theorem get_session_prompt_absent_witness :
    get_session_prompt none "x" = none ∧
    get_session_prompt
      (some [some ⟨some "y", some (.num 1), some "d"⟩, none]) "x" = none :=
  ⟨(get_session_prompt_absent "x").1,
   (get_session_prompt_absent "x").2
     [some ⟨some "y", some (.num 1), some "d"⟩, none] (by decide)⟩

/-- C9: a matching record without a `timestamp` field gets
`entry.get("timestamp", 0) = 0` at line 24, so it beats every matching record
with a strictly positive timestamp: here `e` is the first matching record
whose timestamp is absent, every earlier match has a positive numeric
timestamp, and every later match has a positive numeric or absent timestamp;
the scan returns `e`'s display text. -/
theorem get_session_prompt_missing_timestamp_zero (session_id : String)
    (lines : List (Option HistoryEntry)) (pre post : List HistoryEntry)
    (e : HistoryEntry)
    (hsplit : matchesOf session_id lines = pre ++ e :: post)
    (hnone : e.timestamp = none)
    (hpre : ∀ x ∈ pre, posNumTs x = true)
    (hpost : ∀ x ∈ post, x.timestamp = none ∨ posNumTs x = true) :
    get_session_prompt (some lines) session_id = some (e.display.getD "") := by
  have he := noneTs_etsInt e hnone
  apply get_session_prompt_spec session_id lines pre post e _ hsplit
  · intro x hx
    rw [he.1]
    exact (posNumTs_etsInt x (hpre x hx)).1
  · intro x hx
    rw [he.1]
    rcases hpost x hx with h | h
    · rw [(noneTs_etsInt x h).1]
    · exact le_of_lt (posNumTs_etsInt x h).1
  · intro x hx
    rw [hsplit] at hx
    rcases List.mem_append.mp hx with h | h
    · exact (posNumTs_etsInt x (hpre x h)).2
    · rcases List.mem_cons.mp h with h | h
      · rw [h]; exact he.2
      · rcases hpost x h with h2 | h2
        · exact (noneTs_etsInt x h2).2
        · exact (posNumTs_etsInt x h2).2

/-- Witness for C9: the middle match has no timestamp and beats matches with
timestamps 7 and 2 on both sides of it. -/
theorem get_session_prompt_missing_timestamp_zero_witness :
    get_session_prompt
      (some [some ⟨some "s", some (.num 7), some "early"⟩,
             some ⟨some "s", none, some "missing"⟩,
             some ⟨some "s", some (.num 2), some "late"⟩]) "s"
      = some "missing" :=
  get_session_prompt_missing_timestamp_zero "s"
    [some ⟨some "s", some (.num 7), some "early"⟩,
     some ⟨some "s", none, some "missing"⟩,
     some ⟨some "s", some (.num 2), some "late"⟩]
    [⟨some "s", some (.num 7), some "early"⟩]
    [⟨some "s", some (.num 2), some "late"⟩]
    ⟨some "s", none, some "missing"⟩
    (by decide) (by decide) (by decide) (by decide)

theorem scanLoop_error_of_badline (session_id : String) :
    ∀ (lines : List (Option HistoryEntry)) (fp : Option String)
      (m : Option Int) (e : HistoryEntry) (s : String),
      some e ∈ lines → e.sessionId = some session_id →
      e.timestamp = some (TsVal.str s) →
      scanLoop session_id fp m lines = .error () := by
  intro lines
  induction lines with
  | nil => intro fp m e s hmem; cases hmem
  | cons line rest ih =>
    intro fp m e s hmem hsid hts
    rcases List.mem_cons.mp hmem with heq | hmem'
    · rw [← heq]
      exact scanLoop_cons_str session_id fp m e rest hsid s (by rw [hts]; rfl)
    · match line with
      | none =>
        rw [scanLoop_cons_none]
        exact ih fp m e s hmem' hsid hts
      | some entry =>
        by_cases hmatch : entry.sessionId = some session_id
        · rcases hval : entry.timestamp.getD (TsVal.num 0) with t | sv
          · cases hcond : (match m with
              | none => true
              | some mv => decide (t < mv)) with
            | false =>
              rw [scanLoop_cons_keep session_id fp m entry rest hmatch t hval hcond]
              exact ih fp m e s hmem' hsid hts
            | true =>
              rw [scanLoop_cons_update session_id fp m entry rest hmatch t hval hcond]
              exact ih _ _ e s hmem' hsid hts
          · exact scanLoop_cons_str session_id fp m entry rest hmatch sv hval
        · rw [scanLoop_cons_nomatch session_id fp m entry rest hmatch]
          exact ih fp m e s hmem' hsid hts

/-- C10: a parseable history line that matches the session identifier but
carries a non-numeric (e.g. string) timestamp makes `timestamp < min_timestamp`
raise `TypeError`, which the inner `except json.JSONDecodeError` does not catch:
the whole scan aborts through the outer catch-all and the function returns
`None`, losing the labels of every other valid matching record. -/
theorem get_session_prompt_nonnumeric_timestamp_aborts (session_id : String)
    (lines : List (Option HistoryEntry)) (e : HistoryEntry) (s : String)
    (hmem : some e ∈ lines) (hsid : e.sessionId = some session_id)
    (hts : e.timestamp = some (TsVal.str s)) :
    scanLoop session_id none none lines = Except.error () ∧
    get_session_prompt (some lines) session_id = none := by
  have h := scanLoop_error_of_badline session_id lines none none e s hmem hsid hts
  exact ⟨h, by simp only [get_session_prompt, h]⟩

/-- Witness for C10: valid matching records with displays "good1"/"good2"
surround a matching record whose timestamp is the string "2024": the lookup
yields `None`, not "good1". -/
theorem get_session_prompt_nonnumeric_timestamp_aborts_witness :
    scanLoop "s" none none
      [some ⟨some "s", some (.num 1), some "good1"⟩,
       some ⟨some "s", some (.str "2024"), some "bad"⟩,
       some ⟨some "s", some (.num 2), some "good2"⟩] = Except.error () ∧
    get_session_prompt
      (some [some ⟨some "s", some (.num 1), some "good1"⟩,
             some ⟨some "s", some (.str "2024"), some "bad"⟩,
             some ⟨some "s", some (.num 2), some "good2"⟩]) "s" = none :=
  get_session_prompt_nonnumeric_timestamp_aborts "s"
    [some ⟨some "s", some (.num 1), some "good1"⟩,
     some ⟨some "s", some (.str "2024"), some "bad"⟩,
     some ⟨some "s", some (.num 2), some "good2"⟩]
    ⟨some "s", some (.str "2024"), some "bad"⟩ "2024"
    (by decide) (by decide) (by decide)

/-! ### Analysis of the sanitizer -/

theorem ascii_keep (c : Char) (h : asciiWordChar c = true) :
    keepChar c = true ∧ isDashSpace c = false := by
  simp only [asciiWordChar, keepChar, pyWordChar, pySpaceChar, isDashSpace,
    Bool.or_eq_true, Bool.and_eq_true, Bool.or_eq_false_iff, Bool.and_eq_false_iff,
    decide_eq_true_eq, decide_eq_false_iff_not, Bool.not_eq_true] at h ⊢
  omega

theorem keep_not_dashSpace (c : Char) (hk : keepChar c = true)
    (hd : isDashSpace c = false) : pyWordChar c = true := by
  simp only [keepChar, isDashSpace, Bool.or_eq_true, Bool.or_eq_false_iff,
    decide_eq_true_eq, decide_eq_false_iff_not] at hk hd
  rcases hk with (h | h) | h
  · exact h
  · exact absurd h (by simp [hd.2])
  · exact absurd h hd.1

theorem collapseAux_word (l : List Char) :
    ∀ b, (∀ c ∈ l, keepChar c = true) →
      ∀ c ∈ collapseAux b l, pyWordChar c = true := by
  induction l with
  | nil => intro b _ c hc; cases hc
  | cons d rest ih =>
    intro b h c hc
    unfold collapseAux at hc
    by_cases hd : isDashSpace d = true
    · rw [if_pos hd] at hc
      cases b with
      | true => exact ih true (fun x hx => h x (by simp [hx])) c hc
      | false =>
        rcases List.mem_cons.mp hc with he | hm
        · rw [he]; decide
        · exact ih true (fun x hx => h x (by simp [hx])) c hm
    · rw [if_neg hd] at hc
      rcases List.mem_cons.mp hc with he | hm
      · rw [he]
        exact keep_not_dashSpace d (h d (by simp)) (by simpa using hd)
      · exact ih false (fun x hx => h x (by simp [hx])) c hm

theorem stripChar_subset (a : Char) (l : List Char) :
    ∀ c ∈ stripChar a l, c ∈ l := by
  intro c hc
  unfold stripChar at hc
  rw [List.mem_reverse] at hc
  have h1 := (List.dropWhile_suffix (fun x => decide (x = a))).sublist.mem hc
  rw [List.mem_reverse] at h1
  exact (List.dropWhile_suffix (fun x => decide (x = a))).sublist.mem h1

theorem stripChar_length_le (a : Char) (l : List Char) :
    (stripChar a l).length ≤ l.length := by
  unfold stripChar
  rw [List.length_reverse]
  calc (List.dropWhile (fun x => decide (x = a))
          (List.reverse (List.dropWhile (fun x => decide (x = a)) l))).length
      ≤ (List.reverse (List.dropWhile (fun x => decide (x = a)) l)).length :=
        (List.dropWhile_suffix _).sublist.length_le
    _ = (List.dropWhile (fun x => decide (x = a)) l).length := List.length_reverse _
    _ ≤ l.length := (List.dropWhile_suffix _).sublist.length_le

/-- Amended C2 (see the counterexample below): the sanitizer's output has at
most 50 characters, and every one of them is a Python word character (`\w`,
i.e. unicode-alphanumeric or underscore) — so no whitespace, hyphens or other
specials ever appear, and on ASCII input the output stays in `[A-Za-z0-9_]`,
but non-ASCII word characters pass through unchanged. -/
theorem sanitize_filename_output_word_chars (text : String) :
    (sanitize_filename text).length ≤ 50 ∧
    ∀ c ∈ (sanitize_filename text).data, pyWordChar c = true := by
  unfold sanitize_filename
  by_cases h : text = ""
  · rw [if_pos h]
    exact ⟨by decide, by decide⟩
  · rw [if_neg h]
    constructor
    · show (List.take 50 _).length ≤ 50
      rw [List.length_take]
      exact min_le_left _ _
    · intro c hc
      have hc1 : c ∈ stripChar '_' (collapseRuns (text.data.filter keepChar)) :=
        (List.take_sublist 50 _).mem hc
      have hc2 := stripChar_subset '_' _ c hc1
      exact collapseAux_word (text.data.filter keepChar) false
        (fun x hx => List.of_mem_filter hx) c hc2

/-- Counterexample to C2 as stated: on the one-character input `"é"` (a unicode
word character, kept by `re.sub(r'[^\w\s-]', '', ...)`), the sanitizer returns
`"é"`, which contains a character outside `[A-Za-z0-9_]`. -/
theorem sanitize_filename_unicode_counterexample :
    sanitize_filename "é" = "é" ∧
    ((sanitize_filename "é").data.all asciiWordChar) = false := by
  exact ⟨by decide, by decide⟩

theorem collapseAux_id (b : Bool) (l : List Char)
    (h : ∀ c ∈ l, isDashSpace c = false) : collapseAux b l = l := by
  induction l generalizing b with
  | nil => rfl
  | cons d rest ih =>
    unfold collapseAux
    rw [if_neg (by simp [h d (by simp)]),
      ih false (fun c hc => h c (by simp [hc]))]

theorem dropWhile_eq_self_of_head (p : Char → Bool) (l : List Char)
    (h : ∀ c, l.head? = some c → p c = false) : l.dropWhile p = l := by
  cases l with
  | nil => rfl
  | cons d rest =>
    rw [List.dropWhile_cons, if_neg (by simp [h d rfl])]

theorem getLast?_dropWhile_of_ne_nil (p : Char → Bool) (l : List Char)
    (h : l.dropWhile p ≠ []) : (l.dropWhile p).getLast? = l.getLast? := by
  obtain ⟨t, ht⟩ := List.dropWhile_suffix p (l := l)
  conv_rhs => rw [← ht]
  rw [List.getLast?_append]
  rcases hs : (l.dropWhile p).getLast? with _ | v
  · exact absurd (List.getLast?_eq_none_iff.mp hs) h
  · rfl

theorem stripChar_head (a : Char) (l : List Char) :
    ∀ c, (stripChar a l).head? = some c → decide (c = a) = false := by
  intro c hc
  unfold stripChar at hc
  rw [List.head?_reverse] at hc
  have hne : List.dropWhile (fun x => decide (x = a))
      (List.reverse (List.dropWhile (fun x => decide (x = a)) l)) ≠ [] := by
    intro h0; rw [h0] at hc; cases hc
  rw [getLast?_dropWhile_of_ne_nil _ _ hne, List.getLast?_reverse] at hc
  have h2 := List.head?_dropWhile_not (fun x => decide (x = a)) l
  rw [hc] at h2
  exact h2

theorem stripChar_getLast (a : Char) (l : List Char) :
    ∀ c, (stripChar a l).getLast? = some c → decide (c = a) = false := by
  intro c hc
  unfold stripChar at hc
  rw [List.getLast?_reverse] at hc
  have h2 := List.head?_dropWhile_not (fun x => decide (x = a))
    (List.reverse (List.dropWhile (fun x => decide (x = a)) l))
  rw [hc] at h2
  exact h2

theorem stripChar_eq_self (a : Char) (l : List Char)
    (hh : ∀ c, l.head? = some c → decide (c = a) = false)
    (hl : ∀ c, l.getLast? = some c → decide (c = a) = false) :
    stripChar a l = l := by
  unfold stripChar
  rw [dropWhile_eq_self_of_head _ l hh,
    dropWhile_eq_self_of_head _ l.reverse
      (by intro c hc; rw [List.head?_reverse] at hc; exact hl c hc),
    List.reverse_reverse]

theorem mem_dropWhile_of_ne (p : Char → Bool) (l : List Char) (c : Char)
    (hc : c ∈ l) (hpc : p c = false) : c ∈ l.dropWhile p := by
  induction l with
  | nil => cases hc
  | cons d rest ih =>
    rw [List.dropWhile_cons]
    by_cases hd : p d = true
    · rw [if_pos hd]
      rcases List.mem_cons.mp hc with he | hm
      · rw [he] at hpc; rw [hpc] at hd; cases hd
      · exact ih hm
    · rw [if_neg hd]; exact hc

theorem mem_stripChar_of_ne (a : Char) (l : List Char) (c : Char)
    (hc : c ∈ l) (hne : decide (c = a) = false) : c ∈ stripChar a l := by
  unfold stripChar
  rw [List.mem_reverse]
  refine mem_dropWhile_of_ne _ _ _ ?_ hne
  rw [List.mem_reverse]
  exact mem_dropWhile_of_ne _ _ _ hc hne

/-- On nonempty text whose characters are all in `[A-Za-z0-9_]` and of length
at most 50, the sanitizer does nothing but trim leading/trailing underscores:
the filter keeps every character, the run-collapse finds no run, and the
truncation is vacuous. -/
theorem sanitize_clean_eq_strip (x : String) (hx : ¬ x = "")
    (hclean : ∀ c ∈ x.data, asciiWordChar c = true) (hlen : x.data.length ≤ 50) :
    sanitize_filename x = String.mk (stripChar '_' x.data) := by
  unfold sanitize_filename
  rw [if_neg hx,
    List.filter_eq_self.mpr (fun c hc => (ascii_keep c (hclean c hc)).1),
    show collapseRuns x.data = x.data from
      collapseAux_id false x.data (fun c hc => (ascii_keep c (hclean c hc)).2),
    List.take_of_length_le (le_trans (stripChar_length_le '_' x.data) hlen)]

/-- Amended C8 (see the counterexample below): on text of at most 50 characters
over `[A-Za-z0-9_]`, sanitization is idempotent provided the text is not a
nonempty run of underscores only (such text sanitizes to `""`, which
re-sanitizes to the placeholder `"unknown_session"`). -/
theorem sanitize_filename_idempotent_clean (x : String)
    (hlen : x.length ≤ 50)
    (hclean : ∀ c ∈ x.data, asciiWordChar c = true)
    (hund : x = "" ∨ ∃ c ∈ x.data, ¬ c = '_') :
    sanitize_filename (sanitize_filename x) = sanitize_filename x := by
  rcases hund with he | ⟨c0, hc0, hc0ne⟩
  · rw [he]; decide
  · have hlen' : x.data.length ≤ 50 := hlen
    have hx : ¬ x = "" := by
      intro h; rw [h] at hc0; cases hc0
    rw [sanitize_clean_eq_strip x hx hclean hlen']
    have hyne : ¬ String.mk (stripChar '_' x.data) = "" := by
      intro h0
      have hmem := mem_stripChar_of_ne '_' x.data c0 hc0 (by simpa using hc0ne)
      have hnil : stripChar '_' x.data = [] := congrArg String.data h0
      rw [hnil] at hmem
      cases hmem
    have hcleany : ∀ c ∈ (String.mk (stripChar '_' x.data)).data, asciiWordChar c = true :=
      fun c hc => hclean c (stripChar_subset '_' x.data c hc)
    have hleny : (String.mk (stripChar '_' x.data)).data.length ≤ 50 :=
      le_trans (stripChar_length_le '_' x.data) hlen'
    rw [sanitize_clean_eq_strip (String.mk (stripChar '_' x.data)) hyne hcleany hleny]
    exact congrArg String.mk
      (stripChar_eq_self '_' (stripChar '_' x.data)
        (stripChar_head '_' x.data) (stripChar_getLast '_' x.data))

/-- Witness for the amended C8 at the clean input `"_ab"`. -/
theorem sanitize_filename_idempotent_clean_witness :
    sanitize_filename (sanitize_filename "_ab") = sanitize_filename "_ab" :=
  sanitize_filename_idempotent_clean "_ab" (by decide) (by decide)
    (Or.inr (by decide))

/-- Counterexample to C8 as stated: `"_"` is a text of length 1 over
`[A-Za-z0-9_]`, yet `sanitize_filename "_" = ""` (the strip removes
everything) while `sanitize_filename "" = "unknown_session"`, so the double
application differs from the single one. -/
theorem sanitize_filename_underscore_counterexample :
    ("_".data.all asciiWordChar) = true ∧ "_".length ≤ 50 ∧
    sanitize_filename "_" = "" ∧
    ¬ sanitize_filename (sanitize_filename "_") = sanitize_filename "_" := by
  exact ⟨by decide, by decide, by decide, by decide⟩

/-! ### Analysis of main -/

theorem digitChar_isDigit (n : Nat) : (digitChar n).isDigit = true := by
  unfold digitChar
  split_ifs <;> decide

theorem isTimestamp14_strftime (t : PyTime) :
    isTimestamp14 (strftimeYmdHMS t) = true := by
  show ts14aux (String.mk (pad4l t.year ++ pad2l t.month ++ pad2l t.day ++
    '_' :: (pad2l t.hour ++ pad2l t.minute ++ pad2l t.second))).data = true
  simp only [pad4l, pad2l, List.cons_append, List.nil_append]
  show (([digitChar (t.year / 1000), digitChar (t.year / 100),
          digitChar (t.year / 10), digitChar t.year,
          digitChar (t.month / 10), digitChar t.month,
          digitChar (t.day / 10), digitChar t.day].all Char.isDigit) &&
        ('_' == '_') &&
        ([digitChar (t.hour / 10), digitChar t.hour,
          digitChar (t.minute / 10), digitChar t.minute,
          digitChar (t.second / 10), digitChar t.second].all Char.isDigit)) = true
  simp [digitChar_isDigit]

/-- C5: a standard input that fails JSON parsing makes `main` return at lines
53–54 before touching the filesystem: nothing is written, nothing is printed
to the error stream, and the process exits with status 0. -/
theorem main_parse_error_silent (env : Env) :
    mainHook .parseError env = .silentNoop ∧
    writesFile (mainHook .parseError env) = false ∧
    printsError (mainHook .parseError env) = false ∧
    exitsZero (mainHook .parseError env) = true :=
  ⟨rfl, rfl, rfl, rfl⟩

/-- Amended C3 (see the counterexample below): the silent-no-op absorption is
specific to the stdin parse failure; the other pre-append steps run outside
any `try`, so a payload that parses to a non-mapping value (uncaught
`AttributeError` at the session-id extraction) or a failing `os.makedirs`
terminates the process abnormally — error output and non-zero status — rather
than silently. Label-resolution failures, by contrast, are absorbed inside
`get_session_prompt`. -/
theorem main_preappend_failure_policy (env : Env) (p : Payload) :
    mainHook .parseError env = .silentNoop ∧
    mainHook .nonMapping env = .uncaughtError ∧
    mainHook (.mapping p) { env with mkdirOk := false } = .uncaughtError ∧
    exitsZero .uncaughtError = false ∧ printsError .uncaughtError = true :=
  ⟨rfl, rfl, rfl, rfl, rfl⟩

/-- Counterexample to C3 as stated: standard input `"[1, 2]"` is valid JSON
but not an object, so the session-id extraction at line 57 raises an uncaught
`AttributeError` during the steps before the final append — the invocation is
not a silent no-op: a traceback goes to the error stream and the exit status
is non-zero. -/
theorem main_nonmapping_counterexample :
    mainHook .nonMapping
        ⟨none, ⟨2026, 10, 12, 0, 0, 0⟩, "2026-10-12T00:00:00", "/proj", true, true⟩
      = .uncaughtError ∧
    printsError (mainHook .nonMapping
        ⟨none, ⟨2026, 10, 12, 0, 0, 0⟩, "2026-10-12T00:00:00", "/proj", true, true⟩)
      = true ∧
    exitsZero (mainHook .nonMapping
        ⟨none, ⟨2026, 10, 12, 0, 0, 0⟩, "2026-10-12T00:00:00", "/proj", true, true⟩)
      = false :=
  ⟨rfl, rfl, rfl⟩

/-- Amended C6 (see the counterexample below): among the runs that reach the
append (payload parsed to a mapping and `os.makedirs` succeeded), a diagnostic
on the error stream plus non-zero exit happens exactly when the write fails,
and the parse-failure path exits 0; but a failing `os.makedirs` (or a
non-mapping payload) also surfaces a failure, via an uncaught traceback, so
the append is not the only step that surfaces one. -/
theorem main_write_failure_iff (env : Env) (p : Payload) :
    ((printsError (mainHook (.mapping p) { env with mkdirOk := true }) = true ∧
      exitsZero (mainHook (.mapping p) { env with mkdirOk := true }) = false)
      ↔ env.writeOk = false) ∧
    exitsZero (mainHook .parseError env) = true := by
  refine ⟨?_, rfl⟩
  cases hw : env.writeOk with
  | false => simp [mainHook, hw, printsError, exitsZero]
  | true => simp [mainHook, hw, printsError, exitsZero]

/-- Counterexample to C6 as stated: with a parseable mapping payload but a
failing `os.makedirs` (line 75) and a write that would succeed, the process
still prints to the error stream and exits non-zero — a failure surfaced by a
step other than the final append. -/
theorem main_mkdir_failure_counterexample :
    mainHook (.mapping ⟨none, none, none, none⟩)
        ⟨none, ⟨2026, 10, 12, 0, 0, 0⟩, "2026-10-12T00:00:00", "/proj", false, true⟩
      = .uncaughtError ∧
    printsError (mainHook (.mapping ⟨none, none, none, none⟩)
        ⟨none, ⟨2026, 10, 12, 0, 0, 0⟩, "2026-10-12T00:00:00", "/proj", false, true⟩)
      = true ∧
    exitsZero (mainHook (.mapping ⟨none, none, none, none⟩)
        ⟨none, ⟨2026, 10, 12, 0, 0, 0⟩, "2026-10-12T00:00:00", "/proj", false, true⟩)
      = false ∧
    (⟨none, ⟨2026, 10, 12, 0, 0, 0⟩, "2026-10-12T00:00:00", "/proj", false, true⟩
      : Env).writeOk = true :=
  ⟨rfl, rfl, rfl, rfl⟩

/-- C7: for a payload without a `session_id` key, the lookup branch at line 60
is skipped — the outcome does not depend on the history source at all — and
the output filename is `tool_usage_<strftime>.jsonl` where the `strftime` text
matches the 14-digit `YYYYMMDD_HHMMSS` pattern (given `datetime`-valid field
ranges, under which the `strftime` model is exact). -/
theorem main_no_session_id_fallback (env : Env)
    (h1 h2 : Option (List (Option HistoryEntry))) (p : Payload)
    (hsid : p.session_id = none)
    (_hyear : 1000 ≤ env.now.year ∧ env.now.year ≤ 9999)
    (_hfields : env.now.month ≤ 12 ∧ env.now.day ≤ 31 ∧ env.now.hour ≤ 23 ∧
      env.now.minute ≤ 59 ∧ env.now.second ≤ 59) :
    mainHook (.mapping p) { env with history := h1 } =
      mainHook (.mapping p) { env with history := h2 } ∧
    (∀ s, constructFilename p.session_id s env.now =
      "tool_usage_" ++ strftimeYmdHMS env.now ++ ".jsonl") ∧
    isTimestamp14 (strftimeYmdHMS env.now) = true ∧
    (env.mkdirOk = true → env.writeOk = true →
      mainHook (.mapping p) env =
        .wrote (env.cwd ++ "/.claude/analytics/tool_usage_history/" ++
            ("tool_usage_" ++ strftimeYmdHMS env.now ++ ".jsonl"))
          ⟨env.nowIso, p.tool_name, p.tool_input, p.tool_response, none⟩) := by
  refine ⟨?_, ?_, isTimestamp14_strftime env.now, ?_⟩
  · simp [mainHook, hsid, sidTruthy]
  · intro s
    simp [constructFilename, hsid, sidTruthy]
  · intro hm hw
    simp [mainHook, hsid, sidTruthy, constructFilename, hm, hw]

/-- Witness for C7 at a concrete payload and environment. -/
theorem main_no_session_id_fallback_witness :
    isTimestamp14 (strftimeYmdHMS ⟨2026, 10, 12, 3, 4, 5⟩) = true ∧
    mainHook (.mapping ⟨none, some (.str "Bash"), none, none⟩)
        ⟨some [], ⟨2026, 10, 12, 3, 4, 5⟩, "iso", "/proj", true, true⟩ =
      .wrote ("/proj/.claude/analytics/tool_usage_history/" ++
          ("tool_usage_" ++ strftimeYmdHMS ⟨2026, 10, 12, 3, 4, 5⟩ ++ ".jsonl"))
        ⟨"iso", some (.str "Bash"), none, none, none⟩ := by
  have h := main_no_session_id_fallback
    ⟨some [], ⟨2026, 10, 12, 3, 4, 5⟩, "iso", "/proj", true, true⟩
    (some []) none ⟨none, some (.str "Bash"), none, none⟩ rfl
    (by exact ⟨by decide, by decide⟩)
    (by exact ⟨by decide, by decide, by decide, by decide, by decide⟩)
  exact ⟨h.2.2.1, h.2.2.2 rfl rfl⟩
